import Mathlib

/-!
Verification of the Aegis post-quantum chat session layer.

This file is a shallow embedding, in Lean 4, of the parts of the Aegis
source that its specification talks about: the KDF layer
(src/crypto/kdf.rs), the double ratchet (src/crypto/ratchet.rs), the wire
protocol and its framing (src/network/protocol.rs, src/network/mod.rs),
the AEAD wrapper (src/crypto/symmetric.rs) and the session receive path
(src/session.rs).

Modelling conventions:
* Rust byte slices and arrays become `List Nat`, each element a byte value.
* Machine integers become `Nat` with explicit `% 2 ^ w` where the source
  performs a cast or wraps.
* `&mut self` methods become functions from the state to (result, state).
* Wall-clock reads (`current_timestamp`) become an explicit `now : Nat`
  argument.
* `HashMap<u64, SymmetricKey>` becomes an association list; `insert`
  replaces an existing binding, `remove` returns the removed value and
  the remaining map, as the Rust API does.
* The HKDF / HMAC-SHA256 primitives of the `hkdf`, `hmac` and `sha2`
  crates are implemented concretely below, byte for byte, so the KDF
  layer is not stubbed.
* Rust `Result` values whose error branch is statically dead (HKDF with a
  32-byte output and HMAC-SHA256 key setup can never fail, which the
  source handles with `?` or `unwrap_or`) are modelled by total
  functions; `derive_keys`, the one KDF entry point whose length check
  can fire, keeps its `Except` type and is related to the total helpers
  by the lemmas `derive_keys_chain` and `derive_keys_message`.
-/

namespace Aegis

/-! ## Byte utilities -/

/-- Little-endian byte encoding of `n` on `w` bytes (as `u64::to_le_bytes`
and friends produce, low byte first; higher bits are discarded as a cast
would). -/
def toLEBytes : Nat → Nat → List Nat
  | 0, _ => []
  | w + 1, n => n % 256 :: toLEBytes w (n / 256)

/-- Recombine a little-endian byte list into a number. -/
def fromLEBytes (l : List Nat) : Nat :=
  l.foldr (fun b acc => b + 256 * acc) 0

/-- Big-endian byte encoding of `n` on `w` bytes (as `u32::to_be_bytes`
produces for `w = 4`). -/
def toBEBytes : Nat → Nat → List Nat
  | 0, _ => []
  | w + 1, n => toBEBytes w (n / 256) ++ [n % 256]

/-- Recombine a big-endian byte list into a number. -/
def fromBEBytes (l : List Nat) : Nat :=
  l.foldl (fun acc b => acc * 256 + b) 0

/-- ASCII bytes of a Rust byte-string literal such as `b"send-chain-v1"`. -/
def asciiBytes (s : String) : List Nat :=
  s.data.map Char.toNat

/-! ## SHA-256, HMAC-SHA256 and HKDF-SHA256

Concrete embedding of the hash primitives the `sha2`, `hmac` and `hkdf`
crates provide to src/crypto/kdf.rs. Bytes and 32-bit words are plain
`Nat`; every word-sized operation reduces modulo `2 ^ 32`. -/

/-- Reduce to a 32-bit word. -/
def w32 (n : Nat) : Nat := n % 4294967296

/-- Right rotation of a 32-bit word. -/
def rotr32 (r x : Nat) : Nat := Nat.lor (x >>> r) (w32 (x <<< (32 - r)))

/-- Bitwise complement of a 32-bit word. -/
def not32 (x : Nat) : Nat := Nat.xor x 4294967295

def shaCh (x y z : Nat) : Nat := Nat.xor (Nat.land x y) (Nat.land (not32 x) z)

def shaMaj (x y z : Nat) : Nat :=
  Nat.xor (Nat.land x y) (Nat.xor (Nat.land x z) (Nat.land y z))

def bigSigma0 (x : Nat) : Nat := Nat.xor (rotr32 2 x) (Nat.xor (rotr32 13 x) (rotr32 22 x))

def bigSigma1 (x : Nat) : Nat := Nat.xor (rotr32 6 x) (Nat.xor (rotr32 11 x) (rotr32 25 x))

def smallSigma0 (x : Nat) : Nat := Nat.xor (rotr32 7 x) (Nat.xor (rotr32 18 x) (x >>> 3))

def smallSigma1 (x : Nat) : Nat := Nat.xor (rotr32 17 x) (Nat.xor (rotr32 19 x) (x >>> 10))

/-- The 64 SHA-256 round constants. -/
def sha256K : List Nat :=
  [1116352408, 1899447441, 3049323471, 3921009573, 961987163, 1508970993,
   2453635748, 2870763221, 3624381080, 310598401, 607225278, 1426881987,
   1925078388, 2162078206, 2614888103, 3248222580, 3835390401, 4022224774,
   264347078, 604807628, 770255983, 1249150122, 1555081692, 1996064986,
   2554220882, 2821834349, 2952996808, 3210313671, 3336571891, 3584528711,
   113926993, 338241895, 666307205, 773529912, 1294757372, 1396182291,
   1695183700, 1986661051, 2177026350, 2456956037, 2730485921, 2820302411,
   3259730800, 3345764771, 3516065817, 3600352804, 4094571909, 275423344,
   430227734, 506948616, 659060556, 883997877, 958139571, 1322822218,
   1537002063, 1747873779, 1955562222, 2024104815, 2227730452, 2361852424,
   2428436474, 2756734187, 3204031479, 3329325298]

/-- The SHA-256 initial hash state. -/
def sha256H0 : List Nat :=
  [1779033703, 3144134277, 1013904242, 2773480762,
   1359893119, 2600822924, 528734635, 1541459225]

/-- Pack bytes into big-endian 32-bit words. -/
def words32BE : List Nat → List Nat
  | b0 :: b1 :: b2 :: b3 :: t =>
      (b0 * 16777216 + b1 * 65536 + b2 * 256 + b3) :: words32BE t
  | _ => []

/-- Extend the 16-word message schedule to 64 words; `fuel` counts the
words still to append (48 at the top call). -/
def extendW : Nat → List Nat → List Nat
  | 0, w => w
  | f + 1, w =>
      let i := w.length
      extendW f (w ++ [w32 (smallSigma1 (w.getD (i - 2) 0) + w.getD (i - 7) 0 +
                            smallSigma0 (w.getD (i - 15) 0) + w.getD (i - 16) 0)])

/-- One SHA-256 round on the eight-word working state. -/
def shaRound (st : List Nat) (kw : Nat × Nat) : List Nat :=
  match st with
  | [a, b, c, d, e, f, g, h] =>
      let t1 := w32 (h + bigSigma1 e + shaCh e f g + kw.1 + kw.2)
      let t2 := w32 (bigSigma0 a + shaMaj a b c)
      [w32 (t1 + t2), a, b, c, w32 (d + t1), e, f, g]
  | other => other

/-- Compress one 64-byte block into the running hash state. -/
def sha256Compress (hs : List Nat) (block : List Nat) : List Nat :=
  let w := extendW 48 (words32BE block)
  let st := (sha256K.zip w).foldl shaRound hs
  List.zipWith (fun x y => w32 (x + y)) hs st

/-- SHA-256 padding: append 0x80, zero bytes to 56 mod 64, then the
bit length as 8 big-endian bytes. -/
def sha256Pad (msg : List Nat) : List Nat :=
  msg ++ [0x80] ++ List.replicate ((64 - (msg.length + 9) % 64) % 64) 0 ++
    toBEBytes 8 (msg.length * 8)

/-- Split into 64-byte chunks; the fuel argument makes the recursion
structural and is instantiated with the list length. -/
def chunksFuel : Nat → List Nat → List (List Nat)
  | 0, _ => []
  | _, [] => []
  | f + 1, l => l.take 64 :: chunksFuel f (l.drop 64)

def chunks64 (l : List Nat) : List (List Nat) := chunksFuel l.length l

/-- SHA-256 of a byte list, as 32 bytes. -/
def sha256 (msg : List Nat) : List Nat :=
  (((chunks64 (sha256Pad msg)).foldl sha256Compress sha256H0).map (toBEBytes 4)).flatten

/-- HMAC-SHA256 (RFC 2104) with a 64-byte block size, as the `hmac`
crate computes it for `Hmac<Sha256>`. -/
def hmacSha256 (key msg : List Nat) : List Nat :=
  let k0 := if 64 < key.length then sha256 key else key
  let kp := k0 ++ List.replicate (64 - k0.length) 0
  sha256 ((kp.map (fun b => Nat.xor b 0x5c)) ++
          sha256 ((kp.map (fun b => Nat.xor b 0x36)) ++ msg))

/-- HKDF-SHA256 extract step: `PRK = HMAC(salt, ikm)`. An empty salt is
padded with zeros inside HMAC, which matches the RFC 5869 default. -/
def hkdfExtract (salt ikm : List Nat) : List Nat := hmacSha256 salt ikm

/-- HKDF-SHA256 expand: emit `n` blocks `T(i) = HMAC(prk, T(i-1) ‖ info ‖ i)`. -/
def hkdfExpandLoop (prk info : List Nat) : Nat → Nat → List Nat → List Nat
  | 0, _, _ => []
  | n + 1, i, tPrev =>
      let t := hmacSha256 prk (tPrev ++ info ++ [i % 256])
      t ++ hkdfExpandLoop prk info n (i + 1) t

/-- HKDF-SHA256 expand to `l` output bytes. -/
def hkdfExpand (prk info : List Nat) (l : Nat) : List Nat :=
  (hkdfExpandLoop prk info ((l + 31) / 32) 1 []).take l

/-! ## src/crypto/mod.rs and src/crypto/ratchet.rs: error types -/

/-- RatchetError of src/crypto/ratchet.rs. -/
inductive RatchetError where
  | TooManySkippedMessages
  | MessageKeyNotFound
  | InvalidState
  | TimeError (msg : String)
deriving DecidableEq

/-- CryptoError of src/crypto/mod.rs. -/
inductive CryptoError where
  | EncryptionError (msg : String)
  | DecryptionError (msg : String)
  | KeyExchangeError (msg : String)
  | InvalidKey
  | AuthenticationFailed
  | RandomError
  | RatchetError (e : RatchetError)
deriving DecidableEq

/-! ## src/crypto/symmetric.rs: key and message containers -/

/-- SymmetricKey of src/crypto/symmetric.rs: a 32-byte ChaCha20-Poly1305
key. -/
structure SymmetricKey where
  key : List Nat
deriving DecidableEq

/-- EncryptedMessage of src/crypto/symmetric.rs: 24-byte nonce plus
ciphertext with trailing tag. -/
structure EncryptedMessage where
  nonce : List Nat
  ciphertext : List Nat
deriving DecidableEq

/-! ## src/crypto/kdf.rs -/

/-- derive_keys of src/crypto/kdf.rs: HKDF-SHA256 with the given salt,
ikm and info. The only failure of `hk.expand` is an output longer than
255 hash blocks. -/
def derive_keys (input_key_material salt info : List Nat) (output_length : Nat) :
    Except CryptoError (List Nat) :=
  if 255 * 32 < output_length then
    .error (.KeyExchangeError "HKDF expansion failed")
  else
    .ok (hkdfExpand (hkdfExtract salt input_key_material) info output_length)

/-- derive_chain_key of src/crypto/kdf.rs, as the total function it is
for its fixed 32-byte output (`derive_keys(previous_chain_key, [], context, 32)`). -/
def derive_chain_key (previous_chain_key context : List Nat) : List Nat :=
  hkdfExpand (hkdfExtract [] previous_chain_key) context 32

/-- derive_message_key of src/crypto/kdf.rs:
`derive_keys(chain_key, [], "aegis-message-key-v1" ‖ le64(message_number), 32)`. -/
def derive_message_key (chain_key : List Nat) (message_number : Nat) : SymmetricKey :=
  ⟨hkdfExpand (hkdfExtract [] chain_key)
    (asciiBytes "aegis-message-key-v1" ++ toLEBytes 8 message_number) 32⟩

/-- ratchet_key_hmac of src/crypto/kdf.rs: HMAC-SHA256(key, constant).
`HmacSha256::new_from_slice` accepts any key length, so the Result
wrapper of the source is dead and the function is total. -/
def ratchet_key_hmac (key constant : List Nat) : List Nat :=
  hmacSha256 key constant

/-- derive_master_key of src/crypto/kdf.rs. -/
def derive_master_key (shared_secret salt : List Nat) : SymmetricKey :=
  ⟨hkdfExpand (hkdfExtract salt shared_secret) (asciiBytes "aegis-master-key-v1") 32⟩

/-! ## src/crypto/ratchet.rs: the double ratchet -/

def ROTATION_INTERVAL_SECS : Nat := 60

def MAX_SKIP : Nat := 1000

def CHAIN_ADVANCE_CONTEXT : List Nat := asciiBytes "chain-advance"

/-- The skipped-message-key map, `HashMap<u64, SymmetricKey>` in the
source, as an association list. -/
abbrev SkippedMap := List (Nat × SymmetricKey)

/-- `HashMap::get`-style lookup. -/
def mapLookup (k : Nat) : SkippedMap → Option SymmetricKey
  | [] => none
  | (k₁, v₁) :: t => if k = k₁ then some v₁ else mapLookup k t

/-- `HashMap::insert`: replace an existing binding, otherwise add one. -/
def mapInsert (k : Nat) (v : SymmetricKey) : SkippedMap → SkippedMap
  | [] => [(k, v)]
  | (k₁, v₁) :: t => if k = k₁ then (k, v) :: t else (k₁, v₁) :: mapInsert k v t

/-- `HashMap::remove`: the removed value and the remaining map, or
`none` when the key is absent (leaving the map untouched). -/
def mapRemove (k : Nat) : SkippedMap → Option (SymmetricKey × SkippedMap)
  | [] => none
  | (k₁, v₁) :: t =>
      if k = k₁ then some (v₁, t)
      else (mapRemove k t).map (fun p => (p.1, (k₁, v₁) :: p.2))

/-- RatchetState of src/crypto/ratchet.rs. -/
structure RatchetState where
  root_key : List Nat
  send_chain_key : List Nat
  recv_chain_key : List Nat
  send_counter : Nat
  recv_counter : Nat
  last_rotation : Nat
  skipped_message_keys : SkippedMap
deriving DecidableEq

namespace RatchetState

/-- RatchetState::new. `ratchet_key_hmac` is total, so the
`unwrap_or(root_key)` fallback of the source is dead. `now` stands for
`current_timestamp()`. -/
def new (root_key : List Nat) (now : Nat) : RatchetState :=
  { root_key := root_key
    send_chain_key := ratchet_key_hmac root_key (asciiBytes "send-chain-v1")
    recv_chain_key := ratchet_key_hmac root_key (asciiBytes "recv-chain-v1")
    send_counter := 0
    recv_counter := 0
    last_rotation := now
    skipped_message_keys := [] }

/-- RatchetState::new_responder: the two chain derivations swapped. -/
def new_responder (root_key : List Nat) (now : Nat) : RatchetState :=
  { root_key := root_key
    send_chain_key := ratchet_key_hmac root_key (asciiBytes "recv-chain-v1")
    recv_chain_key := ratchet_key_hmac root_key (asciiBytes "send-chain-v1")
    send_counter := 0
    recv_counter := 0
    last_rotation := now
    skipped_message_keys := [] }

/-- RatchetState::rotate. Both chains are ratcheted with the context
`"rotation-v1-" ‖ le64(now)`; the skipped cache is cleared only when it
holds more than 100 entries. -/
def rotate (s : RatchetState) (now : Nat) : RatchetState :=
  let context := asciiBytes "rotation-v1-" ++ toLEBytes 8 now
  let s1 := { s with
    send_chain_key := ratchet_key_hmac s.send_chain_key context
    recv_chain_key := ratchet_key_hmac s.recv_chain_key context
    last_rotation := now }
  if 100 < s1.skipped_message_keys.length then
    { s1 with skipped_message_keys := [] }
  else s1

/-- RatchetState::check_and_rotate. -/
def check_and_rotate (s : RatchetState) (now : Nat) : RatchetState :=
  if s.last_rotation + ROTATION_INTERVAL_SECS ≤ now then s.rotate now else s

/-- RatchetState::next_send_key. -/
def next_send_key (s : RatchetState) (now : Nat) :
    (SymmetricKey × Nat) × RatchetState :=
  let s0 := s.check_and_rotate now
  let message_key := derive_message_key s0.send_chain_key s0.send_counter
  let counter := s0.send_counter
  ((message_key, counter),
   { s0 with
      send_chain_key := derive_chain_key s0.send_chain_key CHAIN_ADVANCE_CONTEXT
      send_counter := s0.send_counter + 1 })

/-- The `for i in self.recv_counter..message_counter` loop of
get_recv_key: starting at index `start` with chain key `ck`, store
`count` skipped message keys and advance the chain after each one.
Returns the final chain key and the grown map. -/
def skipStore : Nat → Nat → List Nat → SkippedMap → List Nat × SkippedMap
  | 0, _, ck, m => (ck, m)
  | count + 1, start, ck, m =>
      skipStore count (start + 1) (derive_chain_key ck CHAIN_ADVANCE_CONTEXT)
        (mapInsert start (derive_message_key ck start) m)

/-- Lines 139-148 of src/crypto/ratchet.rs: derive the message key from
the current receive chain, and advance the chain when the counter is the
next expected one. -/
def finishRecv (s : RatchetState) (message_counter : Nat) :
    Except CryptoError SymmetricKey × RatchetState :=
  let message_key := derive_message_key s.recv_chain_key message_counter
  if message_counter = s.recv_counter then
    (.ok message_key,
     { s with
        recv_chain_key := derive_chain_key s.recv_chain_key CHAIN_ADVANCE_CONTEXT
        recv_counter := s.recv_counter + 1 })
  else (.ok message_key, s)

/-- RatchetState::get_recv_key. -/
def get_recv_key (s : RatchetState) (message_counter : Nat) :
    Except CryptoError SymmetricKey × RatchetState :=
  match mapRemove message_counter s.skipped_message_keys with
  | some (key, rest) => (.ok key, { s with skipped_message_keys := rest })
  | none =>
    if s.recv_counter < message_counter then
      if MAX_SKIP < message_counter - s.recv_counter then
        (.error (.RatchetError .TooManySkippedMessages), s)
      else
        let p := skipStore (message_counter - s.recv_counter) s.recv_counter
          s.recv_chain_key s.skipped_message_keys
        finishRecv
          { s with
              recv_chain_key := p.1
              recv_counter := message_counter
              skipped_message_keys := p.2 }
          message_counter
    else
      finishRecv s message_counter

/-- RatchetState::rekey. -/
def rekey (s : RatchetState) (new_root_key : List Nat) (now : Nat) : RatchetState :=
  { s with
      root_key := new_root_key
      send_chain_key := ratchet_key_hmac new_root_key (asciiBytes "send-chain-v1")
      recv_chain_key := ratchet_key_hmac new_root_key (asciiBytes "recv-chain-v1")
      send_counter := 0
      recv_counter := 0
      last_rotation := now
      skipped_message_keys := [] }

/-- RatchetState::seconds_until_rotation. -/
def seconds_until_rotation (s : RatchetState) (now : Nat) : Nat :=
  ROTATION_INTERVAL_SECS - (now - s.last_rotation)

end RatchetState

/-- The field-by-field effect of dropping a RatchetState under
`#[derive(ZeroizeOnDrop)]` in src/crypto/ratchet.rs: every field NOT
marked `#[zeroize(skip)]` is overwritten with zeroes before release. In
the source the skip marks sit on `root_key`, `send_chain_key`,
`recv_chain_key` and `skipped_message_keys`, so only the two counters
and the rotation timestamp are zeroized. -/
def ratchet_drop_zeroize (s : RatchetState) : RatchetState :=
  { s with send_counter := 0, recv_counter := 0, last_rotation := 0 }

/-! ## The in-order receive chain and the skip loop -/

/-- The receive chain key after `i` chain advances from `ck0`. -/
def chainAt (ck0 : List Nat) : Nat → List Nat
  | 0 => ck0
  | i + 1 => derive_chain_key (chainAt ck0 i) CHAIN_ADVANCE_CONTEXT

/-- The message key that counter `i` receives under strictly in-order
receipt from initial receive chain key `ck0`. -/
def inOrderKey (ck0 : List Nat) (i : Nat) : SymmetricKey :=
  derive_message_key (chainAt ck0 i) i

/-- A fresh ratchet used by the C4 counterexample: it receives counter
1000 (caching keys 0..999) and then counter 2000 (caching keys
1001..1999 on top). -/
def c4State0 : RatchetState := RatchetState.new (List.replicate 32 4) 0

/-- The state of a fresh ratchet after receiving counter 0 once —
recv_counter is 1 and the cache is empty, so a second delivery of
counter 0 is exactly the below-window, not-cached case of claim C1. -/
def c1State : RatchetState :=
  ((RatchetState.new (List.replicate 32 3) 0).get_recv_key 0).2

/-- Deliver a list of message counters to the ratchet one by one,
collecting each get_recv_key result. -/
def recvAll : RatchetState → List Nat → List (Except CryptoError SymmetricKey) × RatchetState
  | s, [] => ([], s)
  | s, c :: t =>
      let p := s.get_recv_key c
      let q := recvAll p.2 t
      (p.1 :: q.1, q.2)

/-- State invariant of the receive side after the distinct counters in
`done` (all drawn from `0..n-1`) have been delivered to a ratchet that
started with receive chain key `ck0`, counter 0 and an empty cache: the
chain sits at the receive counter, and the cache holds exactly the
canonical in-order keys of the not-yet-delivered counters below it. -/
def RecvInv (ck0 : List Nat) (n : Nat) (done : List Nat) (s : RatchetState) : Prop :=
  s.recv_counter ≤ n ∧
  s.recv_chain_key = chainAt ck0 s.recv_counter ∧
  (∀ i ∈ done, i < s.recv_counter) ∧
  (s.skipped_message_keys.map Prod.fst).Nodup ∧
  (∀ i : Nat, i ∈ s.skipped_message_keys.map Prod.fst ↔ i < s.recv_counter ∧ i ∉ done) ∧
  (∀ q ∈ s.skipped_message_keys, q.2 = inOrderKey ck0 q.1)

/-! ## src/network/mod.rs and src/network/protocol.rs: the wire protocol

Serialization is `bincode::serialize` with its default (fixed-width,
little-endian) configuration on the serde derives of the source types:
a `u8` is one byte, `u16`/`u64` are little-endian, an enum is its
32-bit little-endian serde variant index (declaration order, NOT the
`repr(u8)` discriminants) followed by the variant fields, `Vec<u8>` and
`String` are a little-endian `u64` length followed by the raw bytes, a
`[u8; 24]` is 24 raw bytes, and `Option<T>` is a one-byte tag 0/1
followed by the value. The UTF-8 validity check bincode performs when
deserializing a `String`, and the textual detail it appends to error
messages, are not modelled; Rust `String`s are modelled as their byte
lists. -/

/-- NetworkError of src/network/mod.rs (the IoError payload is reduced
to its message text). -/
inductive NetworkError where
  | ConnectionError (msg : String)
  | ProtocolError (msg : String)
  | PeerError (msg : String)
  | IoError (msg : String)
  | SerializationError (msg : String)
  | InvalidMessage
  | Timeout
deriving DecidableEq

/-- The constructor index of a NetworkError: what distinguishes the
error KINDS (variants), independently of the message strings. -/
def NetworkError.kindIdx : NetworkError → Nat
  | .ConnectionError _ => 0
  | .ProtocolError _ => 1
  | .PeerError _ => 2
  | .IoError _ => 3
  | .SerializationError _ => 4
  | .InvalidMessage => 5
  | .Timeout => 6

def CURRENT_PROTOCOL_VERSION : Nat := 1

def MAX_MESSAGE_SIZE : Nat := 1024 * 1024

/-- MessageType of src/network/protocol.rs. -/
inductive MessageType where
  | Handshake
  | HandshakeResponse
  | EncryptedMessage
  | KeyRotation
  | Ack
  | Heartbeat
  | Disconnect
  | Error
deriving DecidableEq

/-- The serde variant index of a MessageType: its position in
declaration order, which is what bincode writes on the wire. -/
def typeIdx : MessageType → Nat
  | .Handshake => 0
  | .HandshakeResponse => 1
  | .EncryptedMessage => 2
  | .KeyRotation => 3
  | .Ack => 4
  | .Heartbeat => 5
  | .Disconnect => 6
  | .Error => 7

/-- The `repr(u8)` discriminant values of MessageType declared in the
source (Handshake = 0x01 ... Error = 0xFF), used by its `TryFrom<u8>`
impl but NOT by the serde serialization. -/
def messageTypeDiscriminant : MessageType → Nat
  | .Handshake => 0x01
  | .HandshakeResponse => 0x02
  | .EncryptedMessage => 0x03
  | .KeyRotation => 0x04
  | .Ack => 0x05
  | .Heartbeat => 0x06
  | .Disconnect => 0x07
  | .Error => 0xFF

/-- MessagePayload of src/network/protocol.rs. Byte containers are
`List Nat`; the Disconnect reason `Option<String>` carries the bytes of
the string. -/
inductive MessagePayload where
  | Handshake (public_key : List Nat)
  | HandshakeResponse (ciphertext : List Nat)
  | EncryptedData (nonce : List Nat) (ciphertext : List Nat) (message_counter : Nat)
  | KeyRotation (new_key_id : Nat)
  | Ack (message_id : Nat)
  | Heartbeat
  | Disconnect (reason : Option (List Nat))
  | Error (code : Nat) (message : List Nat)
deriving DecidableEq

/-- Message of src/network/protocol.rs. The `ProtocolVersion` newtype
serializes as its inner u8, so it is modelled as the raw number. -/
structure Message where
  version : Nat
  message_type : MessageType
  timestamp : Nat
  key_id : Nat
  payload : MessagePayload
deriving DecidableEq

/-- bincode encoding of a byte vector or string: u64 LE length prefix
followed by the raw bytes. -/
def encodeBytesField (b : List Nat) : List Nat :=
  toLEBytes 8 b.length ++ b

/-- bincode encoding of a MessagePayload: 4-byte LE variant index, then
the fields in order. -/
def encodePayload : MessagePayload → List Nat
  | .Handshake pk => toLEBytes 4 0 ++ encodeBytesField pk
  | .HandshakeResponse ct => toLEBytes 4 1 ++ encodeBytesField ct
  | .EncryptedData nonce ct mc => toLEBytes 4 2 ++ nonce ++ encodeBytesField ct ++ toLEBytes 8 mc
  | .KeyRotation kid => toLEBytes 4 3 ++ toLEBytes 2 kid
  | .Ack mid => toLEBytes 4 4 ++ toLEBytes 8 mid
  | .Heartbeat => toLEBytes 4 5
  | .Disconnect none => toLEBytes 4 6 ++ [0]
  | .Disconnect (some reason) => toLEBytes 4 6 ++ [1] ++ encodeBytesField reason
  | .Error code msg => toLEBytes 4 7 ++ toLEBytes 2 code ++ encodeBytesField msg

/-- Message::to_bytes (modulo the Ok wrapper: bincode serialization of
these types cannot fail): version byte, 4-byte LE message type variant
index, u64 LE timestamp, u16 LE key id, payload. -/
def encodeMessage (m : Message) : List Nat :=
  toLEBytes 1 m.version ++ toLEBytes 4 (typeIdx m.message_type) ++
  toLEBytes 8 m.timestamp ++ toLEBytes 2 m.key_id ++ encodePayload m.payload

/-- Read `n` raw bytes, returning them and the rest. -/
def readBytes (n : Nat) (bs : List Nat) : Option (List Nat × List Nat) :=
  if n ≤ bs.length then some (bs.take n, bs.drop n) else none

/-- Read a `w`-byte little-endian unsigned integer. -/
def readNat (w : Nat) (bs : List Nat) : Option (Nat × List Nat) :=
  (readBytes w bs).map (fun p => (fromLEBytes p.1, p.2))

/-- Read a length-prefixed byte vector or string. -/
def readBytesField (bs : List Nat) : Option (List Nat × List Nat) := do
  let (len, r) ← readNat 8 bs
  readBytes len r

/-- The serde variant index decoding of MessageType (indices 0..7;
anything else is a deserialization error). -/
def decodeMessageType (i : Nat) : Option MessageType :=
  match i with
  | 0 => some .Handshake
  | 1 => some .HandshakeResponse
  | 2 => some .EncryptedMessage
  | 3 => some .KeyRotation
  | 4 => some .Ack
  | 5 => some .Heartbeat
  | 6 => some .Disconnect
  | 7 => some .Error
  | _ => none

/-- bincode decoding of a MessagePayload. -/
def decodePayload (bs : List Nat) : Option (MessagePayload × List Nat) := do
  let (idx, r0) ← readNat 4 bs
  match idx with
  | 0 => do
      let (pk, r) ← readBytesField r0
      pure (.Handshake pk, r)
  | 1 => do
      let (ct, r) ← readBytesField r0
      pure (.HandshakeResponse ct, r)
  | 2 => do
      let (nonce, r1) ← readBytes 24 r0
      let (ct, r2) ← readBytesField r1
      let (mc, r3) ← readNat 8 r2
      pure (.EncryptedData nonce ct mc, r3)
  | 3 => do
      let (kid, r) ← readNat 2 r0
      pure (.KeyRotation kid, r)
  | 4 => do
      let (mid, r) ← readNat 8 r0
      pure (.Ack mid, r)
  | 5 => pure (.Heartbeat, r0)
  | 6 => do
      let (tag, r1) ← readNat 1 r0
      match tag with
      | 0 => pure (.Disconnect none, r1)
      | 1 => do
          let (reason, r2) ← readBytesField r1
          pure (.Disconnect (some reason), r2)
      | _ => none
  | 7 => do
      let (code, r1) ← readNat 2 r0
      let (msg, r2) ← readBytesField r1
      pure (.Error code msg, r2)
  | _ => none

/-- bincode decoding of a Message, returning the unconsumed tail
(bincode 1.x `deserialize` does not reject trailing bytes). -/
def decodeMessage (bs : List Nat) : Option (Message × List Nat) := do
  let (v, r0) ← readNat 1 bs
  let (ti, r1) ← readNat 4 r0
  let t ← decodeMessageType ti
  let (ts, r2) ← readNat 8 r1
  let (kid, r3) ← readNat 2 r2
  let (pl, r4) ← decodePayload r3
  pure ({ version := v, message_type := t, timestamp := ts, key_id := kid,
          payload := pl }, r4)

/-- Message::from_bytes: size cap, then bincode deserialization. The
bincode error detail interpolated into the message string in the source
is not modelled. -/
def Message.from_bytes (bytes : List Nat) : Except NetworkError Message :=
  if MAX_MESSAGE_SIZE < bytes.length then
    .error (.ProtocolError "Message too large")
  else
    match decodeMessage bytes with
    | some p => .ok p.1
    | none => .error (.SerializationError "Deserialization failed")

/-- frame_message: big-endian u32 length prefix (the usize length cast
to u32) followed by the serialized message. The Result wrapper of the
source is dead because serialization cannot fail. -/
def frame_message (m : Message) : List Nat :=
  toBEBytes 4 ((encodeMessage m).length % 4294967296) ++ encodeMessage m

/-- parse_framed_message of src/network/protocol.rs. -/
def parse_framed_message (data : List Nat) : Except NetworkError (Message × Nat) :=
  if data.length < 4 then
    .error (.ProtocolError "Insufficient data for frame header")
  else
    let len := fromBEBytes (data.take 4)
    if MAX_MESSAGE_SIZE < len then
      .error (.ProtocolError "Message too large")
    else if data.length < 4 + len then
      .error (.ProtocolError "Incomplete message frame")
    else
      match Message.from_bytes ((data.drop 4).take len) with
      | .ok m => .ok (m, 4 + len)
      | .error e => .error e

/-- Message type / payload variant pairing checked by
Message::validate. -/
def matchesType : MessageType → MessagePayload → Bool
  | .Handshake, .Handshake _ => true
  | .HandshakeResponse, .HandshakeResponse _ => true
  | .EncryptedMessage, .EncryptedData _ _ _ => true
  | .KeyRotation, .KeyRotation _ => true
  | .Ack, .Ack _ => true
  | .Heartbeat, .Heartbeat => true
  | .Disconnect, .Disconnect _ => true
  | .Error, .Error _ _ => true
  | _, _ => false

/-- Message::validate, with `now` for `current_timestamp()`. The
formatted detail of the version error string is not modelled. -/
def Message.validate (m : Message) (now : Nat) : Except NetworkError Unit :=
  if CURRENT_PROTOCOL_VERSION < m.version then
    .error (.ProtocolError "Unsupported protocol version")
  else if now + 300 < m.timestamp then
    .error (.ProtocolError "Timestamp too far in the future")
  else if matchesType m.message_type m.payload then
    .ok ()
  else
    .error (.ProtocolError "Message type and payload mismatch")

/-- The Rust type ranges of a payload value: each length fits the u64
length prefix, the nonce is exactly 24 bytes and every numeric field
fits its machine width. These hold for every value representable in the
Rust types. -/
def wfPayload : MessagePayload → Bool
  | .Handshake pk => pk.length < 2 ^ 64
  | .HandshakeResponse ct => ct.length < 2 ^ 64
  | .EncryptedData nonce ct mc =>
      nonce.length = 24 && ct.length < 2 ^ 64 && mc < 2 ^ 64
  | .KeyRotation kid => kid < 2 ^ 16
  | .Ack mid => mid < 2 ^ 64
  | .Heartbeat => true
  | .Disconnect none => true
  | .Disconnect (some reason) => reason.length < 2 ^ 64
  | .Error code msg => code < 2 ^ 16 && msg.length < 2 ^ 64

/-- The Rust type ranges of a Message value. -/
def wfMessage (m : Message) : Bool :=
  m.version < 2 ^ 8 && m.timestamp < 2 ^ 64 && m.key_id < 2 ^ 16 &&
    wfPayload m.payload

/-- A well-formed heartbeat message for the C6 witness. -/
def c6Msg : Message :=
  { version := 1, message_type := .Heartbeat, timestamp := 0, key_id := 0,
    payload := .Heartbeat }

/-- A well-formed message whose bincode encoding is larger than 1 MiB:
a handshake carrying a 1 MiB public key plus overhead. -/
def c6Big : Message :=
  { version := 1, message_type := .Handshake, timestamp := 0, key_id := 0,
    payload := .Handshake (List.replicate 1048576 0) }

/-! ## Claim C8: the envelope byte layout -/

/-- Modelled from the spec, section 6 "Envelope fields (in order):
version (u8) | message_type (u8) | timestamp (u64 LE) | key_id (u16) |
payload": the twelve header bytes the spec prescribes, with the
message_type byte carrying the declared discriminant values
(Handshake = 0x01 ... Error = 0xFF). Used only as the comparison point
for claim C8; Message::to_bytes is `encodeMessage`. -/
def spec_envelope_prefix (m : Message) : List Nat :=
  [m.version] ++ [messageTypeDiscriminant m.message_type] ++
  toLEBytes 8 m.timestamp ++ toLEBytes 2 m.key_id

/-- A concrete heartbeat message for the C8 counterexample. -/
def c8Msg : Message :=
  { version := 1, message_type := .Heartbeat, timestamp := 0, key_id := 0,
    payload := .Heartbeat }

/-! ## src/crypto/symmetric.rs decryption and src/session.rs -/

/-- The XChaCha20-Poly1305 AEAD open operation, abstracted: from key
bytes, nonce, ciphertext and associated data to `some plaintext` on tag
verification and `none` on failure. The cipher itself is a parameter of
the session model; src/crypto/symmetric.rs calls into the
chacha20poly1305 crate here. -/
abbrev AeadDecrypt := List Nat → List Nat → List Nat → List Nat → Option (List Nat)

/-- decrypt of src/crypto/symmetric.rs over an abstract AEAD: any open
failure becomes DecryptionError with this fixed string. -/
def decrypt (d : AeadDecrypt) (key : SymmetricKey) (encrypted : EncryptedMessage)
    (associated_data : List Nat) : Except CryptoError (List Nat) :=
  match d key.key encrypted.nonce encrypted.ciphertext associated_data with
  | some plaintext => .ok plaintext
  | none => .error (.DecryptionError "Authentication failed or invalid ciphertext")

/-- decrypt_simple of src/crypto/symmetric.rs: decrypt with empty
associated data. -/
def decrypt_simple (d : AeadDecrypt) (key : SymmetricKey)
    (encrypted : EncryptedMessage) : Except CryptoError (List Nat) :=
  decrypt d key encrypted []

/-- SessionRole of src/session.rs. -/
inductive SessionRole where
  | Initiator
  | Responder
deriving DecidableEq

/-- Session of src/session.rs, without the connection handle: its
ratchet state, the established flag, and the role. -/
structure Session where
  ratchet : RatchetState
  established : Bool
  role : SessionRole

/-- Session::recv of src/session.rs, lines 166-218, on an already
received message `msg` at time `now`, over the abstract AEAD `d`. The
network receive, the heartbeat reply send, and the textual suffixes the
source appends with `format!` to the wrapped error are outside the
model; each returned error keeps the constructor and the fixed prefix
of the source string. The second component is the session after the
call: the ratchet advances whenever `get_recv_key` ran, and the
`established` flag is written ONLY in the Disconnect branch. -/
def Session.recv (d : AeadDecrypt) (s : Session) (msg : Message) (now : Nat) :
    Except NetworkError (List Nat) × Session :=
  match s.established with
  | false => (.error (.ConnectionError "Session not established"), s)
  | true =>
    match msg.validate now with
    | .error e => (.error e, s)
    | .ok () =>
      match msg.message_type with
      | .EncryptedMessage =>
        match msg.payload with
        | .EncryptedData nonce ciphertext counter =>
          let p := s.ratchet.get_recv_key counter
          match p.1 with
          | .error _ =>
              (.error (.ConnectionError "Key retrieval failed"),
               { s with ratchet := p.2 })
          | .ok message_key =>
            match decrypt_simple d message_key ⟨nonce, ciphertext⟩ with
            | .error _ =>
                (.error (.ConnectionError "Decryption failed"),
                 { s with ratchet := p.2 })
            | .ok plaintext => (.ok plaintext, { s with ratchet := p.2 })
        | _ => (.error (.ProtocolError "Invalid encrypted message payload"), s)
      | .Heartbeat => (.ok [], s)
      | .Disconnect =>
          (.error (.ConnectionError "Peer disconnected"),
           { s with established := false })
      | _ => (.error (.ProtocolError "Unexpected message type"), s)

/-- An AEAD that rejects every ciphertext: models a message whose tag
does not verify. -/
def c2NoneDecrypt : AeadDecrypt := fun _ _ _ _ => none

/-- An established responder session for the C2 counterexample. -/
def c2Session : Session :=
  { ratchet := RatchetState.new (List.replicate 32 0) 0
    established := true
    role := .Responder }

/-- An EncryptedMessage protocol message for the C2 counterexample. -/
def c2Msg : Message :=
  { version := 1, message_type := .EncryptedMessage, timestamp := 0, key_id := 0,
    payload := .EncryptedData (List.replicate 24 0) [1, 2, 3] 0 }

/-- The rejecting AEAD for the C2 witness. -/
def c2wD : AeadDecrypt := fun _ _ _ _ => none

/-- An established initiator session for the C2 witness. -/
def c2wS : Session :=
  { ratchet := RatchetState.new (List.replicate 32 1) 0
    established := true
    role := .Initiator }

/-- The EncryptedMessage for the C2 witness. -/
def c2wM : Message :=
  { version := 1, message_type := .EncryptedMessage, timestamp := 0, key_id := 0,
    payload := .EncryptedData (List.replicate 24 2) [9] 0 }

theorem toLEBytes_length (w n : Nat) : (toLEBytes w n).length = w := by
  induction w generalizing n with
  | zero => rfl
  | succ w ih => simp [toLEBytes, ih]

theorem toBEBytes_length (w n : Nat) : (toBEBytes w n).length = w := by
  induction w generalizing n with
  | zero => rfl
  | succ w ih => simp [toBEBytes, ih]

theorem mod_base_pow_succ (n w : Nat) :
    n % 256 ^ (w + 1) = n % 256 + 256 * (n / 256 % 256 ^ w) := by
  rw [pow_succ, mul_comm, Nat.mod_mul]

theorem fromLEBytes_toLEBytes (w n : Nat) :
    fromLEBytes (toLEBytes w n) = n % 256 ^ w := by
  induction w generalizing n with
  | zero => simp [toLEBytes, fromLEBytes, Nat.mod_one]
  | succ w ih =>
    simp only [toLEBytes, fromLEBytes, List.foldr_cons] at *
    rw [ih (n / 256), mod_base_pow_succ]

theorem fromLEBytes_toLEBytes_of_lt {w n : Nat} (h : n < 256 ^ w) :
    fromLEBytes (toLEBytes w n) = n := by
  rw [fromLEBytes_toLEBytes, Nat.mod_eq_of_lt h]

theorem fromBEBytes_append_singleton (l : List Nat) (b : Nat) :
    fromBEBytes (l ++ [b]) = fromBEBytes l * 256 + b := by
  simp [fromBEBytes, List.foldl_append]

theorem fromBEBytes_toBEBytes (w n : Nat) :
    fromBEBytes (toBEBytes w n) = n % 256 ^ w := by
  induction w generalizing n with
  | zero => simp [toBEBytes, fromBEBytes, Nat.mod_one]
  | succ w ih =>
    rw [toBEBytes, fromBEBytes_append_singleton, ih (n / 256), mod_base_pow_succ]
    ring

theorem fromBEBytes_toBEBytes_of_lt {w n : Nat} (h : n < 256 ^ w) :
    fromBEBytes (toBEBytes w n) = n := by
  rw [fromBEBytes_toBEBytes, Nat.mod_eq_of_lt h]

theorem derive_keys_chain (prev context : List Nat) :
    derive_keys prev [] context 32 = .ok (derive_chain_key prev context) := by
  simp [derive_keys, derive_chain_key]

theorem derive_keys_message (ck : List Nat) (n : Nat) :
    derive_keys ck [] (asciiBytes "aegis-message-key-v1" ++ toLEBytes 8 n) 32 =
      .ok (derive_message_key ck n).key := by
  simp [derive_keys, derive_message_key]

/-! ## Association-list map lemmas -/

theorem mapRemove_eq_none_iff (k : Nat) (m : SkippedMap) :
    mapRemove k m = none ↔ k ∉ m.map Prod.fst := by
  induction m with
  | nil => simp [mapRemove]
  | cons q t ih =>
    obtain ⟨k₁, v₁⟩ := q
    by_cases hk : k = k₁
    · subst hk; simp [mapRemove]
    · simp [mapRemove, hk, Option.map_eq_none', ih]

/-- Everything `HashMap::remove` guarantees on a hit: the removed pair
was a binding, the map shrank by one, the remaining bindings come from
the original map, and under key distinctness the remaining key set is
the original one minus the removed key. -/
theorem mapRemove_spec {k : Nat} {m : SkippedMap} {v : SymmetricKey} {rest : SkippedMap}
    (h : mapRemove k m = some (v, rest)) :
    (k, v) ∈ m ∧ rest.length + 1 = m.length ∧ (∀ q ∈ rest, q ∈ m) ∧
      ((m.map Prod.fst).Nodup →
        (rest.map Prod.fst).Nodup ∧
        ∀ i, i ∈ rest.map Prod.fst ↔ i ∈ m.map Prod.fst ∧ i ≠ k) := by
  induction m generalizing v rest with
  | nil => simp [mapRemove] at h
  | cons q t ih =>
    obtain ⟨k₁, v₁⟩ := q
    by_cases hk : k = k₁
    · subst hk
      rw [mapRemove, if_pos rfl] at h
      have hp := Option.some.inj h
      have hv : v₁ = v := congrArg Prod.fst hp
      have hr : t = rest := congrArg Prod.snd hp
      subst hv; subst hr
      refine ⟨List.mem_cons_self _ _, rfl, fun q hq => List.mem_cons_of_mem _ hq, ?_⟩
      intro hnd
      simp only [List.map_cons, List.nodup_cons] at hnd
      refine ⟨hnd.2, fun i => ?_⟩
      constructor
      · intro hi
        refine ⟨List.mem_cons_of_mem _ hi, ?_⟩
        intro hik; subst hik; exact hnd.1 hi
      · rintro ⟨hi, hik⟩
        rcases List.mem_cons.1 hi with h1 | h1
        · exact absurd h1 hik
        · exact h1
    · simp only [mapRemove, if_neg hk] at h
      cases hrem : mapRemove k t with
      | none => rw [hrem] at h; simp at h
      | some p =>
        obtain ⟨v₂, rest₂⟩ := p
        rw [hrem] at h
        rw [Option.map_some'] at h
        have hp := Option.some.inj h
        have hv : v₂ = v := congrArg Prod.fst hp
        have hr : (k₁, v₁) :: rest₂ = rest := congrArg Prod.snd hp
        subst hv; subst hr
        obtain ⟨hmem, hlen, hsub, hnd⟩ := ih hrem
        refine ⟨List.mem_cons_of_mem _ hmem, by simpa using hlen, ?_, ?_⟩
        · intro q hq
          rcases List.mem_cons.1 hq with h1 | h1
          · exact h1 ▸ List.mem_cons_self _ _
          · exact List.mem_cons_of_mem _ (hsub _ h1)
        · intro hndm
          simp only [List.map_cons, List.nodup_cons] at hndm
          obtain ⟨hnd1, hiff⟩ := hnd hndm.2
          constructor
          · simp only [List.map_cons, List.nodup_cons]
            refine ⟨fun hc => ?_, hnd1⟩
            exact hndm.1 ((hiff k₁).1 hc).1
          · intro i
            simp only [List.map_cons, List.mem_cons, hiff i]
            constructor
            · rintro (h1 | ⟨h1, h2⟩)
              · refine ⟨Or.inl h1, ?_⟩
                rw [h1]
                exact fun he => hk he.symm
              · exact ⟨Or.inr h1, h2⟩
            · rintro ⟨h1 | h1, h2⟩
              · exact Or.inl h1
              · exact Or.inr ⟨h1, h2⟩

theorem mapInsert_fresh {k : Nat} {m : SkippedMap} (v : SymmetricKey)
    (h : k ∉ m.map Prod.fst) : mapInsert k v m = m ++ [(k, v)] := by
  induction m with
  | nil => rfl
  | cons q t ih =>
    obtain ⟨k₁, v₁⟩ := q
    simp only [List.map_cons, List.mem_cons, not_or] at h
    simp [mapInsert, h.1, ih h.2]

theorem mapInsert_length_le (k : Nat) (v : SymmetricKey) (m : SkippedMap) :
    (mapInsert k v m).length ≤ m.length + 1 := by
  induction m with
  | nil => simp [mapInsert]
  | cons q t ih =>
    obtain ⟨k₁, v₁⟩ := q
    by_cases hk : k = k₁
    · simp [mapInsert, hk]
    · simp only [mapInsert, if_neg hk, List.length_cons]
      omega

/-- When every key already present is below the loop start, the skip
loop of get_recv_key appends exactly the canonical skipped entries for
counters `[i, i + count)` and leaves the chain at position `i + count`. -/
theorem skipStore_spec (ck0 : List Nat) :
    ∀ (count i : Nat) (m : SkippedMap), (∀ j ∈ m.map Prod.fst, j < i) →
      RatchetState.skipStore count i (chainAt ck0 i) m =
        (chainAt ck0 (i + count),
         m ++ (List.range' i count).map (fun j => (j, inOrderKey ck0 j))) := by
  intro count
  induction count with
  | zero => intro i m _; simp [RatchetState.skipStore]
  | succ c ih =>
    intro i m hfresh
    have hnotin : i ∉ m.map Prod.fst := fun hi => lt_irrefl i (hfresh i hi)
    have step : RatchetState.skipStore (c + 1) i (chainAt ck0 i) m =
        RatchetState.skipStore c (i + 1) (chainAt ck0 (i + 1))
          (m ++ [(i, inOrderKey ck0 i)]) := by
      rw [RatchetState.skipStore, mapInsert_fresh _ hnotin]
      rfl
    have hfresh1 : ∀ j ∈ (m ++ [(i, inOrderKey ck0 i)]).map Prod.fst, j < i + 1 := by
      intro j hj
      simp only [List.map_append, List.map_cons, List.map_nil, List.mem_append,
        List.mem_singleton] at hj
      rcases hj with h1 | h1
      · exact Nat.lt_succ_of_lt (hfresh j h1)
      · omega
    rw [step, ih (i + 1) _ hfresh1]
    have h1 : i + 1 + c = i + (c + 1) := by omega
    rw [h1, List.range'_succ, List.map_cons, List.append_assoc, List.singleton_append]

theorem skipStore_length_le :
    ∀ (count i : Nat) (ck : List Nat) (m : SkippedMap),
      (RatchetState.skipStore count i ck m).2.length ≤ m.length + count := by
  intro count
  induction count with
  | zero => intro i ck m; simp [RatchetState.skipStore]
  | succ c ih =>
    intro i ck m
    calc (RatchetState.skipStore (c + 1) i ck m).2.length
        ≤ (mapInsert i (derive_message_key ck i) m).length + c := ih _ _ _
      _ ≤ m.length + 1 + c := by
          exact Nat.add_le_add_right (mapInsert_length_le _ _ _) c
      _ = m.length + (c + 1) := by omega

theorem finishRecv_skipped (s : RatchetState) (c : Nat) :
    ((s.finishRecv c).2).skipped_message_keys = s.skipped_message_keys := by
  unfold RatchetState.finishRecv
  split <;> rfl

/-! ## Claim theorems on the ratchet -/

/-- The skipped cache never shrinks below removal and never grows by
more than one per insert, so rotate can only shrink it. -/
theorem rotate_skipped_le (s : RatchetState) (now : Nat) :
    (s.rotate now).skipped_message_keys.length ≤ s.skipped_message_keys.length := by
  simp only [RatchetState.rotate]
  split
  · simp
  · simp

theorem check_and_rotate_skipped_le (s : RatchetState) (now : Nat) :
    (s.check_and_rotate now).skipped_message_keys.length ≤ s.skipped_message_keys.length := by
  unfold RatchetState.check_and_rotate
  split
  · exact rotate_skipped_le s now
  · exact Nat.le_refl _

theorem get_recv_key_skipped_le (s : RatchetState) (c : Nat) :
    ((s.get_recv_key c).2).skipped_message_keys.length ≤
      s.skipped_message_keys.length + MAX_SKIP := by
  cases hrem : mapRemove c s.skipped_message_keys with
  | some p =>
    obtain ⟨v, rest⟩ := p
    have hlen := (mapRemove_spec hrem).2.1
    simp only [RatchetState.get_recv_key, hrem]
    omega
  | none =>
    by_cases h1 : s.recv_counter < c
    · by_cases h2 : MAX_SKIP < c - s.recv_counter
      · simp only [RatchetState.get_recv_key, hrem, if_pos h1, if_pos h2]
        omega
      · simp only [RatchetState.get_recv_key, hrem, if_pos h1, if_neg h2,
          finishRecv_skipped]
        have := skipStore_length_le (c - s.recv_counter) s.recv_counter
          s.recv_chain_key s.skipped_message_keys
        omega
    · simp only [RatchetState.get_recv_key, hrem, if_neg h1, finishRecv_skipped]
      omega

/-- finishRecv at exactly the expected counter: the chain advances one
step and the returned key is the in-order key of that counter. -/
theorem finishRecv_at (ck0 : List Nat) (s : RatchetState)
    (hchain : s.recv_chain_key = chainAt ck0 s.recv_counter) :
    s.finishRecv s.recv_counter =
      (.ok (inOrderKey ck0 s.recv_counter),
       { s with
          recv_chain_key := chainAt ck0 (s.recv_counter + 1)
          recv_counter := s.recv_counter + 1 }) := by
  unfold RatchetState.finishRecv
  rw [if_pos rfl, hchain]
  rfl

/-- Receiving the next expected counter: the chain advances one step and
the cache is untouched. -/
theorem get_recv_key_next (ck0 : List Nat) (s : RatchetState)
    (hchain : s.recv_chain_key = chainAt ck0 s.recv_counter)
    (hnc : s.recv_counter ∉ s.skipped_message_keys.map Prod.fst) :
    s.get_recv_key s.recv_counter =
      (.ok (inOrderKey ck0 s.recv_counter),
       { s with
          recv_chain_key := chainAt ck0 (s.recv_counter + 1)
          recv_counter := s.recv_counter + 1 }) := by
  have hrem := (mapRemove_eq_none_iff s.recv_counter s.skipped_message_keys).2 hnc
  simp only [RatchetState.get_recv_key, hrem, lt_irrefl, if_false]
  exact finishRecv_at ck0 s hchain

/-- Receiving a counter ahead of the window: the skip loop caches the
canonical keys of the gap, the chain lands past the received counter,
and the returned key is the in-order key of that counter. -/
theorem get_recv_key_future (ck0 : List Nat) (s : RatchetState) (c : Nat)
    (hchain : s.recv_chain_key = chainAt ck0 s.recv_counter)
    (hnc : c ∉ s.skipped_message_keys.map Prod.fst)
    (hgt : s.recv_counter < c) (hle : c - s.recv_counter ≤ MAX_SKIP)
    (hfresh : ∀ j ∈ s.skipped_message_keys.map Prod.fst, j < s.recv_counter) :
    s.get_recv_key c =
      (.ok (inOrderKey ck0 c),
       { s with
          recv_chain_key := chainAt ck0 (c + 1)
          recv_counter := c + 1
          skipped_message_keys := s.skipped_message_keys ++
            (List.range' s.recv_counter (c - s.recv_counter)).map
              (fun j => (j, inOrderKey ck0 j)) }) := by
  have hrem := (mapRemove_eq_none_iff c s.skipped_message_keys).2 hnc
  have hn2 : ¬ MAX_SKIP < c - s.recv_counter := by omega
  simp only [RatchetState.get_recv_key, hrem, if_pos hgt, if_neg hn2]
  rw [hchain, skipStore_spec ck0 (c - s.recv_counter) s.recv_counter
    s.skipped_message_keys hfresh]
  have hsum : s.recv_counter + (c - s.recv_counter) = c := by omega
  rw [hsum]
  have hfin := finishRecv_at ck0
    { s with
        recv_chain_key := chainAt ck0 c
        recv_counter := c
        skipped_message_keys := s.skipped_message_keys ++
          (List.range' s.recv_counter (c - s.recv_counter)).map
            (fun j => (j, inOrderKey ck0 j)) }
    rfl
  exact hfin

/-- get_recv_key_future specialized to an explicitly given record, so
that instances at concrete states need no definitional reasoning about
the chain key field. -/
theorem get_recv_key_future_mk (ck0 root sck : List Nat) (sc rc lr : Nat)
    (m : SkippedMap) (c : Nat)
    (hnc : c ∉ m.map Prod.fst) (hgt : rc < c) (hle : c - rc ≤ MAX_SKIP)
    (hfresh : ∀ j ∈ m.map Prod.fst, j < rc) :
    RatchetState.get_recv_key ⟨root, sck, chainAt ck0 rc, sc, rc, lr, m⟩ c =
      (.ok (inOrderKey ck0 c),
       ⟨root, sck, chainAt ck0 (c + 1), sc, c + 1, lr,
        m ++ (List.range' rc (c - rc)).map (fun j => (j, inOrderKey ck0 j))⟩) := by
  have h := get_recv_key_future ck0 ⟨root, sck, chainAt ck0 rc, sc, rc, lr, m⟩ c
    (by with_reducible rfl) hnc hgt hle hfresh
  with_reducible exact h

/-- Claim C9 (confirmed): for every 32-byte root key the initiator send
chain equals the responder receive chain and vice versa, and both are
the HMAC of the root key under the domain-separation strings
`send-chain-v1` and `recv-chain-v1`. -/
theorem claim_C9 (r : List Nat) (now : Nat) (_h : r.length = 32) :
    (RatchetState.new r now).send_chain_key = (RatchetState.new_responder r now).recv_chain_key ∧
    (RatchetState.new r now).recv_chain_key = (RatchetState.new_responder r now).send_chain_key ∧
    (RatchetState.new r now).send_chain_key = ratchet_key_hmac r (asciiBytes "send-chain-v1") ∧
    (RatchetState.new r now).recv_chain_key = ratchet_key_hmac r (asciiBytes "recv-chain-v1") :=
  ⟨rfl, rfl, rfl, rfl⟩

/-- Witness for claim C9 at the all-zero 32-byte root key. -/
theorem claim_C9_witness :
    (List.replicate 32 0).length = 32 ∧
    ((RatchetState.new (List.replicate 32 0) 0).send_chain_key =
        (RatchetState.new_responder (List.replicate 32 0) 0).recv_chain_key ∧
     (RatchetState.new (List.replicate 32 0) 0).recv_chain_key =
        (RatchetState.new_responder (List.replicate 32 0) 0).send_chain_key ∧
     (RatchetState.new (List.replicate 32 0) 0).send_chain_key =
        ratchet_key_hmac (List.replicate 32 0) (asciiBytes "send-chain-v1") ∧
     (RatchetState.new (List.replicate 32 0) 0).recv_chain_key =
        ratchet_key_hmac (List.replicate 32 0) (asciiBytes "recv-chain-v1")) :=
  ⟨by simp, claim_C9 (List.replicate 32 0) 0 (by simp)⟩

/-- Claim C10 (confirmed): when the requested counter is not cached and
exceeds the receive counter by more than MAX_SKIP, get_recv_key returns
the TooManySkippedMessages error and the whole state — counters, chain
keys and cache — is exactly the input state. -/
theorem claim_C10 (s : RatchetState) (c : Nat)
    (hcache : c ∉ s.skipped_message_keys.map Prod.fst)
    (hgap : MAX_SKIP < c - s.recv_counter) :
    s.get_recv_key c = (.error (.RatchetError .TooManySkippedMessages), s) := by
  have hlt : s.recv_counter < c := by
    by_contra hcon
    push_neg at hcon
    omega
  unfold RatchetState.get_recv_key
  rw [(mapRemove_eq_none_iff c s.skipped_message_keys).2 hcache]
  simp [hlt, hgap]

/-- Witness for claim C10: a fresh ratchet asked for counter 1500. -/
theorem claim_C10_witness :
    (1500 : Nat) ∉ ((RatchetState.new (List.replicate 32 0) 1).skipped_message_keys.map Prod.fst) ∧
    MAX_SKIP < 1500 - (RatchetState.new (List.replicate 32 0) 1).recv_counter ∧
    (RatchetState.new (List.replicate 32 0) 1).get_recv_key 1500 =
      (.error (.RatchetError .TooManySkippedMessages), RatchetState.new (List.replicate 32 0) 1) := by
  have h1 : (1500 : Nat) ∉
      ((RatchetState.new (List.replicate 32 0) 1).skipped_message_keys.map Prod.fst) := by
    simp [RatchetState.new]
  have h2 : MAX_SKIP < 1500 - (RatchetState.new (List.replicate 32 0) 1).recv_counter := by
    simp [RatchetState.new, MAX_SKIP]
  exact ⟨h1, h2, claim_C10 _ 1500 h1 h2⟩

/-- Claim C1 (code bug): for a counter strictly below the receive
counter that is absent from the skipped cache, get_recv_key does NOT
fail with MessageKeyNotFound (that variant is never constructed
anywhere in the source); it returns Ok with a key freshly derived from
the current receive chain at the stale counter, leaving the state
unchanged. -/
theorem claim_C1 (s : RatchetState) (c : Nat)
    (hlt : c < s.recv_counter)
    (hcache : c ∉ s.skipped_message_keys.map Prod.fst) :
    s.get_recv_key c = (.ok (derive_message_key s.recv_chain_key c), s) := by
  unfold RatchetState.get_recv_key
  rw [(mapRemove_eq_none_iff c s.skipped_message_keys).2 hcache]
  have h1 : ¬ s.recv_counter < c := by omega
  have h2 : ¬ c = s.recv_counter := by omega
  simp [h1, RatchetState.finishRecv, h2]

/-- Claim C4 (amended): no single ratchet operation grows the skipped
cache by more than MAX_SKIP entries — the constructors and rekey leave
it empty, rotation and the send path can only shrink it, and one
get_recv_key call adds at most the checked gap of MAX_SKIP entries.
(The total across calls is NOT bounded by MAX_SKIP; see the
counterexample.) -/
theorem claim_C4_amended :
    (∀ r now, (RatchetState.new r now).skipped_message_keys.length = 0) ∧
    (∀ r now, (RatchetState.new_responder r now).skipped_message_keys.length = 0) ∧
    (∀ (s : RatchetState) now,
      ((s.next_send_key now).2).skipped_message_keys.length ≤
        s.skipped_message_keys.length) ∧
    (∀ (s : RatchetState) c,
      ((s.get_recv_key c).2).skipped_message_keys.length ≤
        s.skipped_message_keys.length + MAX_SKIP) ∧
    (∀ (s : RatchetState) now,
      (s.rotate now).skipped_message_keys.length ≤ s.skipped_message_keys.length) ∧
    (∀ (s : RatchetState) k now,
      (s.rekey k now).skipped_message_keys.length = 0) := by
  refine ⟨fun r now => rfl, fun r now => rfl, ?_, get_recv_key_skipped_le,
    rotate_skipped_le, fun s k now => rfl⟩
  intro s now
  have h := check_and_rotate_skipped_le s now
  simp only [RatchetState.next_send_key]
  exact h

/-- Counterexample to claim C4: the per-call gap check bounds only one
call, so after receiving counters 1000 and 2000 the cache holds 1999
entries — the claimed invariant "never more than MAX_SKIP = 1000
entries in total" fails. -/
theorem counterexample_C4 :
    (((c4State0.get_recv_key 1000).2.get_recv_key 2000).2).skipped_message_keys.length = 1999 ∧
    MAX_SKIP <
      (((c4State0.get_recv_key 1000).2.get_recv_key 2000).2).skipped_message_keys.length := by
  have e1 : c4State0.recv_counter = 0 := rfl
  have e2 : c4State0.skipped_message_keys = [] := rfl
  have h0chain : c4State0.recv_chain_key =
      chainAt c4State0.recv_chain_key c4State0.recv_counter := rfl
  have h0nc : 1000 ∉ c4State0.skipped_message_keys.map Prod.fst := by
    rw [e2]; simp
  have h0gt : c4State0.recv_counter < 1000 := by rw [e1]; norm_num
  have h0le : 1000 - c4State0.recv_counter ≤ MAX_SKIP := by
    rw [e1]; norm_num [MAX_SKIP]
  have h0fresh : ∀ j ∈ c4State0.skipped_message_keys.map Prod.fst,
      j < c4State0.recv_counter := by
    rw [e2]; simp
  have h1eq := get_recv_key_future c4State0.recv_chain_key c4State0 1000
    h0chain h0nc h0gt h0le h0fresh
  -- the state after the first call, as an explicit record
  have s1eq : (c4State0.get_recv_key 1000).2 =
      ⟨c4State0.root_key, c4State0.send_chain_key,
       chainAt c4State0.recv_chain_key 1001, c4State0.send_counter, 1001,
       c4State0.last_rotation,
       (List.range' 0 1000).map
         (fun j => (j, inOrderKey c4State0.recv_chain_key j))⟩ := by
    refine (congrArg Prod.snd h1eq).trans ?_
    rw [e1, e2]
    norm_num
  have hid : (Prod.fst ∘ fun j : Nat =>
      (j, inOrderKey c4State0.recv_chain_key j)) = id := rfl
  have h2keys :
      (((List.range' 0 1000).map
          (fun j => (j, inOrderKey c4State0.recv_chain_key j))).map Prod.fst) =
        List.range' 0 1000 := by
    rw [List.map_map, hid, List.map_id]
  have h2nc : 2000 ∉ ((List.range' 0 1000).map
      (fun j => (j, inOrderKey c4State0.recv_chain_key j))).map Prod.fst := by
    rw [h2keys]
    simp
  have h2fresh : ∀ j ∈ ((List.range' 0 1000).map
      (fun j => (j, inOrderKey c4State0.recv_chain_key j))).map Prod.fst,
      j < 1001 := by
    rw [h2keys]
    intro j hj
    simp only [List.mem_range'_1] at hj
    omega
  have h2eq := get_recv_key_future_mk c4State0.recv_chain_key
    c4State0.root_key c4State0.send_chain_key c4State0.send_counter 1001
    c4State0.last_rotation
    ((List.range' 0 1000).map (fun j => (j, inOrderKey c4State0.recv_chain_key j)))
    2000 h2nc (by norm_num) (by norm_num [MAX_SKIP]) h2fresh
  rw [s1eq, congrArg Prod.snd h2eq]
  have hlen :
      ((((List.range' 0 1000).map
          (fun j => (j, inOrderKey c4State0.recv_chain_key j))) ++
        (List.range' 1001 (2000 - 1001)).map
          (fun j => (j, inOrderKey c4State0.recv_chain_key j))).length) = 1999 := by
    simp only [List.length_append, List.length_map, List.length_range']
  constructor
  · exact hlen
  · rw [hlen]
    norm_num [MAX_SKIP]

set_option maxRecDepth 8000 in
/-- Witness for claim C1: replaying counter 0 against `c1State`. -/
theorem claim_C1_witness :
    0 < c1State.recv_counter ∧
    0 ∉ c1State.skipped_message_keys.map Prod.fst ∧
    c1State.get_recv_key 0 = (.ok (derive_message_key c1State.recv_chain_key 0), c1State) := by
  have hc : c1State.recv_counter = 1 := rfl
  have hsk : c1State.skipped_message_keys = [] := rfl
  have h1 : 0 < c1State.recv_counter := by rw [hc]; exact Nat.zero_lt_one
  have h2 : 0 ∉ c1State.skipped_message_keys.map Prod.fst := by rw [hsk]; simp
  exact ⟨h1, h2, claim_C1 c1State 0 h1 h2⟩

set_option maxHeartbeats 1000000 in
/-- Delivering one fresh counter `c < n` preserves the receive
invariant and returns the in-order key of `c`. -/
theorem get_recv_key_step (ck0 : List Nat) (n : Nat) (done : List Nat) (s : RatchetState)
    (hInv : RecvInv ck0 n done s) (c : Nat) (hc : c < n) (hcd : c ∉ done)
    (hn : n ≤ MAX_SKIP + 1) :
    (s.get_recv_key c).1 = .ok (inOrderKey ck0 c) ∧
    RecvInv ck0 n (c :: done) (s.get_recv_key c).2 := by
  obtain ⟨hrcn, hchain, hdone, hnd, hkeys, hvals⟩ := hInv
  by_cases hmem : c ∈ s.skipped_message_keys.map Prod.fst
  · -- cache hit: the stored key is returned and removed
    cases hrem : mapRemove c s.skipped_message_keys with
    | none =>
      exact absurd hmem ((mapRemove_eq_none_iff _ _).1 hrem)
    | some p =>
      obtain ⟨v, rest⟩ := p
      obtain ⟨hin, _hlen, hsub, hndf⟩ := mapRemove_spec hrem
      obtain ⟨hndr, hiffr⟩ := hndf hnd
      have hval : v = inOrderKey ck0 c := hvals (c, v) hin
      have hclt : c < s.recv_counter := ((hkeys c).1 hmem).1
      have hres : s.get_recv_key c = (.ok v, { s with skipped_message_keys := rest }) := by
        simp only [RatchetState.get_recv_key, hrem]
      rw [hres]
      refine ⟨by rw [hval], hrcn, hchain, ?_, hndr, ?_, ?_⟩
      · intro i hi
        rcases List.mem_cons.1 hi with h1 | h1
        · exact h1 ▸ hclt
        · exact hdone i h1
      · intro i
        show i ∈ rest.map Prod.fst ↔ i < s.recv_counter ∧ i ∉ c :: done
        rw [hiffr i, hkeys i]
        simp only [List.mem_cons, not_or]
        constructor
        · rintro ⟨⟨hi1, hi2⟩, hine⟩
          exact ⟨hi1, hine, hi2⟩
        · rintro ⟨hi1, hine, hi2⟩
          exact ⟨⟨hi1, hi2⟩, hine⟩
      · intro q hq
        exact hvals q (hsub q hq)
  · have hrem := (mapRemove_eq_none_iff c s.skipped_message_keys).2 hmem
    rcases Nat.lt_trichotomy c s.recv_counter with hlt | heq | hgt
    · -- impossible: every undelivered counter below the window is cached
      exact absurd ((hkeys c).2 ⟨hlt, hcd⟩) hmem
    · -- the next expected counter
      have hmem2 : s.recv_counter ∉ s.skipped_message_keys.map Prod.fst := heq ▸ hmem
      rw [heq, get_recv_key_next ck0 s hchain hmem2]
      have hrclt : s.recv_counter < n := heq ▸ hc
      refine ⟨rfl, ?_⟩
      refine ⟨?_, by with_reducible rfl, ?_, hnd, ?_, hvals⟩
      · show s.recv_counter + 1 ≤ n
        omega
      · intro i hi
        show i < s.recv_counter + 1
        rcases List.mem_cons.1 hi with h1 | h1
        · omega
        · have := hdone i h1
          omega
      · intro i
        show i ∈ s.skipped_message_keys.map Prod.fst ↔
          i < s.recv_counter + 1 ∧ i ∉ s.recv_counter :: done
        rw [hkeys i]
        simp only [List.mem_cons, not_or]
        constructor
        · rintro ⟨h1, h2⟩
          exact ⟨by omega, by omega, h2⟩
        · rintro ⟨h1, h2, h3⟩
          exact ⟨by omega, h3⟩
    · -- a counter ahead of the window
      have hle : c - s.recv_counter ≤ MAX_SKIP := by
        have : c < MAX_SKIP + 1 := by omega
        omega
      have hfresh : ∀ j ∈ s.skipped_message_keys.map Prod.fst, j < s.recv_counter :=
        fun j hj => ((hkeys j).1 hj).1
      rw [get_recv_key_future ck0 s c hchain hmem hgt hle hfresh]
      have hkeysapp :
          ((s.skipped_message_keys ++
            (List.range' s.recv_counter (c - s.recv_counter)).map
              (fun j => (j, inOrderKey ck0 j))).map Prod.fst) =
          s.skipped_message_keys.map Prod.fst ++
            List.range' s.recv_counter (c - s.recv_counter) := by
        rw [List.map_append, List.map_map]
        have hid : (Prod.fst ∘ fun j : Nat => (j, inOrderKey ck0 j)) = id := rfl
        rw [hid, List.map_id]
      refine ⟨rfl, ?_⟩
      refine ⟨by show c + 1 ≤ n; omega, by with_reducible rfl, ?_, ?_, ?_, ?_⟩
      · intro i hi
        show i < c + 1
        rcases List.mem_cons.1 hi with h1 | h1
        · omega
        · have h2 := hdone i h1
          omega
      · show ((s.skipped_message_keys ++ _).map Prod.fst).Nodup
        rw [hkeysapp, List.nodup_append]
        refine ⟨hnd, List.nodup_range' _ _, ?_⟩
        intro a ha hb
        have h1 := hfresh a ha
        have h2 := (List.mem_range'_1.1 hb).1
        omega
      · intro i
        show i ∈ (s.skipped_message_keys ++ _).map Prod.fst ↔ i < c + 1 ∧ i ∉ c :: done
        rw [hkeysapp]
        simp only [List.mem_append, List.mem_range'_1, List.mem_cons, not_or, hkeys i]
        constructor
        · rintro (⟨h1, h2⟩ | ⟨h1, h2⟩)
          · exact ⟨by omega, by omega, h2⟩
          · refine ⟨by omega, by omega, fun hdi => ?_⟩
            have := hdone i hdi
            omega
        · rintro ⟨h1, h2, h3⟩
          by_cases hcase : i < s.recv_counter
          · exact Or.inl ⟨hcase, h3⟩
          · exact Or.inr ⟨by omega, by omega⟩
      · intro q hq
        rcases List.mem_append.1 hq with h1 | h1
        · exact hvals q h1
        · obtain ⟨j, _hj, rfl⟩ := List.mem_map.1 h1
          rfl

/-- Delivering any list of fresh counters keeps the invariant; the run
returns the in-order key of every delivered counter. -/
theorem recvAll_aux (ck0 : List Nat) (n : Nat) (hn : n ≤ MAX_SKIP + 1) :
    ∀ (l done : List Nat) (s : RatchetState), RecvInv ck0 n done s →
      (done ++ l).Perm (List.range n) →
      (recvAll s l).1 = l.map (fun c => Except.ok (inOrderKey ck0 c)) ∧
      RecvInv ck0 n (l.reverse ++ done) (recvAll s l).2 := by
  intro l
  induction l with
  | nil =>
    intro done s hInv _hperm
    exact ⟨rfl, hInv⟩
  | cons c t ih =>
    intro done s hInv hperm
    have hcn : c < n := by
      have hcmem : c ∈ done ++ c :: t := by simp
      exact List.mem_range.1 ((hperm.mem_iff).1 hcmem)
    have hnodup : (done ++ c :: t).Nodup :=
      (hperm.nodup_iff).2 (List.nodup_range n)
    have hcd : c ∉ done := by
      intro hcdone
      have hdisj := (List.nodup_append.1 hnodup).2.2
      exact hdisj hcdone (List.mem_cons_self c t)
    obtain ⟨hok, hInv2⟩ := get_recv_key_step ck0 n done s hInv c hcn hcd hn
    have hperm2 : ((c :: done) ++ t).Perm (List.range n) :=
      List.Perm.trans List.perm_middle.symm hperm
    obtain ⟨hres, hInvF⟩ := ih (c :: done) ((s.get_recv_key c).2) hInv2 hperm2
    constructor
    · show (s.get_recv_key c).1 :: (recvAll ((s.get_recv_key c).2) t).1 =
        Except.ok (inOrderKey ck0 c) :: t.map (fun x => Except.ok (inOrderKey ck0 x))
      rw [hok, hres]
    · have hd : (c :: t).reverse ++ done = t.reverse ++ (c :: done) := by simp
      rw [hd]
      show RecvInv ck0 n (t.reverse ++ (c :: done)) (recvAll ((s.get_recv_key c).2) t).2
      exact hInvF

/-- Claim C5 (confirmed): from a fresh receive state, delivering the
counters `0..n-1` (with `n - 1 ≤ MAX_SKIP`) in ANY order makes every
get_recv_key call succeed with exactly the key that strictly in-order
receipt would give that counter, and the skipped-key cache is empty once
all counters have been received. The last conjunct is the in-order run
itself, so per counter the two runs agree key for key. -/
theorem claim_C5 (s0 : RatchetState) (l : List Nat) (n : Nat)
    (h0 : s0.recv_counter = 0) (hsk : s0.skipped_message_keys = [])
    (hperm : l.Perm (List.range n)) (hn : n ≤ MAX_SKIP + 1) :
    (recvAll s0 l).1 = l.map (fun c => Except.ok (inOrderKey s0.recv_chain_key c)) ∧
    ((recvAll s0 l).2).skipped_message_keys = [] ∧
    (recvAll s0 (List.range n)).1 =
      (List.range n).map (fun c => Except.ok (inOrderKey s0.recv_chain_key c)) := by
  have hInv0 : RecvInv s0.recv_chain_key n [] s0 := by
    refine ⟨by omega, by rw [h0]; rfl, by simp, by rw [hsk]; simp, ?_, ?_⟩
    · intro i
      rw [hsk, h0]
      simp
    · intro q hq
      rw [hsk] at hq
      simp at hq
  have hmain := recvAll_aux s0.recv_chain_key n hn l [] s0 hInv0 (by simpa using hperm)
  have hinorder := recvAll_aux s0.recv_chain_key n hn (List.range n) [] s0 hInv0 (by simp)
  refine ⟨hmain.1, ?_, hinorder.1⟩
  obtain ⟨hrcn, _, _, _, hkeys, _⟩ := hmain.2
  have hempty : ∀ i, i ∉ ((recvAll s0 l).2).skipped_message_keys.map Prod.fst := by
    intro i hi
    obtain ⟨hlt, hnotdone⟩ := (hkeys i).1 hi
    apply hnotdone
    have hin : i ∈ List.range n := List.mem_range.2 (by omega)
    have hl : i ∈ l := (hperm.mem_iff).2 hin
    simpa using hl
  have hkeysnil : ((recvAll s0 l).2).skipped_message_keys.map Prod.fst = [] :=
    List.eq_nil_iff_forall_not_mem.2 hempty
  exact List.map_eq_nil_iff.1 hkeysnil

/-- Witness for claim C5: a fresh responder ratchet receiving the two
counters 0 and 1 in swapped order. -/
theorem claim_C5_witness :
    (RatchetState.new (List.replicate 32 9) 0).recv_counter = 0 ∧
    (RatchetState.new (List.replicate 32 9) 0).skipped_message_keys = [] ∧
    List.Perm [1, 0] (List.range 2) ∧ 2 ≤ MAX_SKIP + 1 ∧
    ((recvAll (RatchetState.new (List.replicate 32 9) 0) [1, 0]).1 =
      [1, 0].map (fun c =>
        Except.ok (inOrderKey (RatchetState.new (List.replicate 32 9) 0).recv_chain_key c)) ∧
     ((recvAll (RatchetState.new (List.replicate 32 9) 0) [1, 0]).2).skipped_message_keys = [] ∧
     (recvAll (RatchetState.new (List.replicate 32 9) 0) (List.range 2)).1 =
       (List.range 2).map (fun c =>
         Except.ok (inOrderKey (RatchetState.new (List.replicate 32 9) 0).recv_chain_key c))) := by
  have h0 : (RatchetState.new (List.replicate 32 9) 0).recv_counter = 0 := rfl
  have hsk : (RatchetState.new (List.replicate 32 9) 0).skipped_message_keys = [] := rfl
  have hperm : List.Perm [1, 0] (List.range 2) := by
    have hr : List.range 2 = [0, 1] := rfl
    rw [hr]
    exact List.Perm.swap 0 1 []
  have hn : 2 ≤ MAX_SKIP + 1 := by norm_num [MAX_SKIP]
  exact ⟨h0, hsk, hperm, hn,
    claim_C5 (RatchetState.new (List.replicate 32 9) 0) [1, 0] 2 h0 hsk hperm hn⟩

set_option maxRecDepth 8000 in
/-- Claim C3 (code bug): the ZeroizeOnDrop destructor of RatchetState
leaves `root_key`, `send_chain_key` and `recv_chain_key` untouched in
memory (they carry `#[zeroize(skip)]` in the source); only the counters
and the rotation timestamp are zeroed. Shown on a concrete state whose
root key is 32 bytes of 7, which survives the drop un-overwritten. -/
theorem claim_C3 :
    (ratchet_drop_zeroize (RatchetState.new (List.replicate 32 7) 5)).root_key =
        List.replicate 32 7 ∧
    (ratchet_drop_zeroize (RatchetState.new (List.replicate 32 7) 5)).send_chain_key =
        (RatchetState.new (List.replicate 32 7) 5).send_chain_key ∧
    (ratchet_drop_zeroize (RatchetState.new (List.replicate 32 7) 5)).recv_chain_key =
        (RatchetState.new (List.replicate 32 7) 5).recv_chain_key ∧
    List.replicate 32 7 ≠ List.replicate 32 0 ∧
    (ratchet_drop_zeroize (RatchetState.new (List.replicate 32 7) 5)).send_counter = 0 ∧
    (ratchet_drop_zeroize (RatchetState.new (List.replicate 32 7) 5)).recv_counter = 0 ∧
    (ratchet_drop_zeroize (RatchetState.new (List.replicate 32 7) 5)).last_rotation = 0 :=
  ⟨rfl, rfl, rfl, by decide, rfl, rfl, rfl⟩

/-! ## Decode-encode lemmas for the wire protocol -/

theorem readBytes_exact {b : List Nat} {n : Nat} (h : b.length = n) (rest : List Nat) :
    readBytes n (b ++ rest) = some (b, rest) := by
  unfold readBytes
  rw [if_pos (by simp [← h]), List.take_left' h, List.drop_left' h]

theorem readNat_encode {w v : Nat} (h : v < 256 ^ w) (rest : List Nat) :
    readNat w (toLEBytes w v ++ rest) = some (v, rest) := by
  unfold readNat
  rw [readBytes_exact (toLEBytes_length w v) rest]
  simp [fromLEBytes_toLEBytes_of_lt h]

theorem readBytesField_encode {b : List Nat} (h : b.length < 2 ^ 64) (rest : List Nat) :
    readBytesField (encodeBytesField b ++ rest) = some (b, rest) := by
  have h8 : b.length < 256 ^ 8 := by
    have : (256 : Nat) ^ 8 = 2 ^ 64 := by norm_num
    omega
  unfold readBytesField encodeBytesField
  rw [List.append_assoc, readNat_encode h8]
  simp [readBytes_exact rfl]

theorem decodeMessageType_typeIdx (t : MessageType) :
    decodeMessageType (typeIdx t) = some t := by
  cases t <;> rfl

theorem decodePayload_encode {p : MessagePayload} (h : wfPayload p = true)
    (rest : List Nat) :
    decodePayload (encodePayload p ++ rest) = some (p, rest) := by
  have hidx : ∀ i : Nat, i < 256 ^ 4 → ∀ tail : List Nat,
      readNat 4 (toLEBytes 4 i ++ tail) = some (i, tail) :=
    fun i hi tail => readNat_encode hi tail
  cases p with
  | Handshake pk =>
    simp only [wfPayload, decide_eq_true_eq] at h
    simp only [encodePayload, decodePayload, List.append_assoc,
      hidx 0 (by norm_num), Option.pure_def, Option.bind_eq_bind, Option.some_bind, readBytesField_encode h]
  | HandshakeResponse ct =>
    simp only [wfPayload, decide_eq_true_eq] at h
    simp only [encodePayload, decodePayload, List.append_assoc,
      hidx 1 (by norm_num), Option.pure_def, Option.bind_eq_bind, Option.some_bind, readBytesField_encode h]
  | EncryptedData nonce ct mc =>
    simp only [wfPayload, Bool.and_eq_true, decide_eq_true_eq] at h
    obtain ⟨⟨h1, h2⟩, h3⟩ := h
    have h64 : mc < 256 ^ 8 := by
      have : (256 : Nat) ^ 8 = 2 ^ 64 := by norm_num
      omega
    simp only [encodePayload, decodePayload, List.append_assoc,
      hidx 2 (by norm_num), Option.pure_def, Option.bind_eq_bind, Option.some_bind, readBytes_exact h1,
      readBytesField_encode h2, readNat_encode h64]
  | KeyRotation kid =>
    simp only [wfPayload, decide_eq_true_eq] at h
    have h16 : kid < 256 ^ 2 := by
      have : (256 : Nat) ^ 2 = 2 ^ 16 := by norm_num
      omega
    simp only [encodePayload, decodePayload, List.append_assoc,
      hidx 3 (by norm_num), Option.pure_def, Option.bind_eq_bind, Option.some_bind, readNat_encode h16]
  | Ack mid =>
    simp only [wfPayload, decide_eq_true_eq] at h
    have h64 : mid < 256 ^ 8 := by
      have : (256 : Nat) ^ 8 = 2 ^ 64 := by norm_num
      omega
    simp only [encodePayload, decodePayload, List.append_assoc,
      hidx 4 (by norm_num), Option.pure_def, Option.bind_eq_bind, Option.some_bind, readNat_encode h64]
  | Heartbeat =>
    simp only [encodePayload, decodePayload, hidx 5 (by norm_num), Option.pure_def, Option.bind_eq_bind, Option.some_bind]
  | Disconnect reason =>
    cases reason with
    | none =>
      have h1 : readNat 1 (0 :: rest) = some (0, rest) :=
        @readNat_encode 1 0 (by norm_num) rest
      simp only [encodePayload, decodePayload, List.append_assoc, List.cons_append,
        List.nil_append, hidx 6 (by norm_num), Option.pure_def, Option.bind_eq_bind,
        Option.some_bind, List.singleton_append, h1]
    | some reason =>
      simp only [wfPayload, decide_eq_true_eq] at h
      have h1 : ∀ tail : List Nat, readNat 1 (1 :: tail) = some (1, tail) :=
        fun tail => @readNat_encode 1 1 (by norm_num) tail
      simp only [encodePayload, decodePayload, List.append_assoc, List.cons_append,
        List.nil_append, hidx 6 (by norm_num), Option.pure_def, Option.bind_eq_bind,
        Option.some_bind, List.singleton_append, h1,
        readBytesField_encode h]
  | Error code msg =>
    simp only [wfPayload, Bool.and_eq_true, decide_eq_true_eq] at h
    obtain ⟨h1, h2⟩ := h
    have h16 : code < 256 ^ 2 := by
      have : (256 : Nat) ^ 2 = 2 ^ 16 := by norm_num
      omega
    simp only [encodePayload, decodePayload, List.append_assoc,
      hidx 7 (by norm_num), Option.pure_def, Option.bind_eq_bind, Option.some_bind, readNat_encode h16,
      readBytesField_encode h2]

theorem decodeMessage_encode {m : Message} (h : wfMessage m = true)
    (rest : List Nat) :
    decodeMessage (encodeMessage m ++ rest) = some (m, rest) := by
  obtain ⟨v, t, ts, kid, pl⟩ := m
  simp only [wfMessage, Bool.and_eq_true, decide_eq_true_eq] at h
  obtain ⟨⟨⟨h1, h2⟩, h3⟩, h4⟩ := h
  have h8 : v < 256 ^ 1 := by
    have : (256 : Nat) ^ 1 = 2 ^ 8 := by norm_num
    omega
  have hti : typeIdx t < 256 ^ 4 := by cases t <;> norm_num [typeIdx]
  have h64 : ts < 256 ^ 8 := by
    have : (256 : Nat) ^ 8 = 2 ^ 64 := by norm_num
    omega
  have h16 : kid < 256 ^ 2 := by
    have : (256 : Nat) ^ 2 = 2 ^ 16 := by norm_num
    omega
  simp only [encodeMessage, decodeMessage, List.append_assoc,
    readNat_encode h8, Option.pure_def, Option.bind_eq_bind, Option.some_bind, readNat_encode hti,
    decodeMessageType_typeIdx, readNat_encode h64, readNat_encode h16,
    decodePayload_encode h4]

/-! ## Framing lemmas and the framing claims -/

theorem frame_message_length (m : Message) :
    (frame_message m).length = 4 + (encodeMessage m).length := by
  simp [frame_message, toBEBytes_length]

theorem frame_message_len_field {m : Message}
    (h : (encodeMessage m).length < 2 ^ 32) :
    fromBEBytes ((frame_message m).take 4) = (encodeMessage m).length := by
  unfold frame_message
  rw [List.take_left' (toBEBytes_length 4 _), fromBEBytes_toBEBytes]
  have h4 : (256 : Nat) ^ 4 = 4294967296 := by norm_num
  have h32 : (2 : Nat) ^ 32 = 4294967296 := by norm_num
  rw [h4]
  omega

theorem frame_message_drop (m : Message) :
    (frame_message m).drop 4 = encodeMessage m := by
  unfold frame_message
  rw [List.drop_left' (toBEBytes_length 4 _)]

/-- Framing a message whose serialized size exceeds the cap succeeds,
but parsing the resulting frame is rejected as oversize. -/
theorem parse_frame_oversize (m : Message)
    (h1 : MAX_MESSAGE_SIZE < (encodeMessage m).length)
    (h2 : (encodeMessage m).length < 2 ^ 32) :
    parse_framed_message (frame_message m) =
      .error (.ProtocolError "Message too large") := by
  have hlen := frame_message_length m
  have hfield := frame_message_len_field h2
  simp only [parse_framed_message, hfield]
  rw [if_neg (by omega), if_pos h1]

/-- Claim C6 (amended): framing then parsing is the identity and
consumes the whole frame, PROVIDED the serialized message fits the
1 MiB cap (and the fields fit their Rust types); frame_message itself
never rejects oversize messages, so the unrestricted claim fails. -/
theorem claim_C6_amended (m : Message) (hwf : wfMessage m = true)
    (hsize : (encodeMessage m).length ≤ MAX_MESSAGE_SIZE) :
    parse_framed_message (frame_message m) = .ok (m, (frame_message m).length) ∧
    (frame_message m).length = 4 + (encodeMessage m).length := by
  have h32 : (encodeMessage m).length < 2 ^ 32 := by
    have : MAX_MESSAGE_SIZE < 2 ^ 32 := by norm_num [MAX_MESSAGE_SIZE]
    omega
  have hlen := frame_message_length m
  have hfield := frame_message_len_field h32
  have hdrop := frame_message_drop m
  refine ⟨?_, hlen⟩
  simp only [parse_framed_message, hfield, hdrop]
  rw [if_neg (by omega : ¬ (frame_message m).length < 4)]
  rw [if_neg (by omega : ¬ MAX_MESSAGE_SIZE < (encodeMessage m).length)]
  rw [if_neg (by omega : ¬ (frame_message m).length < 4 + (encodeMessage m).length)]
  rw [List.take_length]
  have hdec := decodeMessage_encode hwf []
  rw [List.append_nil] at hdec
  simp only [Message.from_bytes, hdec]
  rw [if_neg (by omega : ¬ MAX_MESSAGE_SIZE < (encodeMessage m).length)]
  rw [hlen]

/-- Witness for claim C6 (amended): the roundtrip on a concrete
heartbeat message. -/
theorem claim_C6_witness :
    wfMessage c6Msg = true ∧
    (encodeMessage c6Msg).length ≤ MAX_MESSAGE_SIZE ∧
    (parse_framed_message (frame_message c6Msg) =
        .ok (c6Msg, (frame_message c6Msg).length) ∧
     (frame_message c6Msg).length = 4 + (encodeMessage c6Msg).length) := by
  have h1 : wfMessage c6Msg = true := by decide
  have h2 : (encodeMessage c6Msg).length ≤ MAX_MESSAGE_SIZE := by decide
  exact ⟨h1, h2, claim_C6_amended c6Msg h1 h2⟩

/-- Counterexample to claim C6 as stated: for this valid message,
frame_message succeeds but parse_framed_message rejects the frame as
oversize instead of returning the message, so the roundtrip law does
not hold for every message. -/
theorem counterexample_C6 :
    wfMessage c6Big = true ∧
    parse_framed_message (frame_message c6Big) =
      .error (.ProtocolError "Message too large") := by
  have hlenc : (encodeMessage c6Big).length = 1048603 := by
    have h : encodeMessage c6Big =
        toLEBytes 1 1 ++ toLEBytes 4 0 ++ toLEBytes 8 0 ++ toLEBytes 2 0 ++
          (toLEBytes 4 0 ++
            (toLEBytes 8 (List.replicate 1048576 (0 : Nat)).length ++
              List.replicate 1048576 0)) := rfl
    rw [h]
    simp only [List.length_append, toLEBytes_length, List.length_replicate]
  constructor
  · rw [show wfMessage c6Big =
        (decide ((1 : Nat) < 2 ^ 8) && decide ((0 : Nat) < 2 ^ 64) &&
         decide ((0 : Nat) < 2 ^ 16) &&
         decide ((List.replicate 1048576 (0 : Nat)).length < 2 ^ 64)) from rfl,
      List.length_replicate]
    decide
  · exact parse_frame_oversize c6Big (by rw [hlenc]; norm_num [MAX_MESSAGE_SIZE])
      (by rw [hlenc]; norm_num)

/-- Claim C7 (amended): parse_framed_message returns four pairwise
distinct error VALUES for its four failure cases, but only two error
KINDS (variants): the three framing failures — short header, oversize,
incomplete frame — are all NetworkError::ProtocolError, distinguished
only by their message strings, and deserialization failure is
NetworkError::SerializationError. In particular the recoverable short
header / incomplete frame cases share their variant with the fatal
oversize case, so the variant alone cannot separate recoverable from
fatal. -/
theorem claim_C7_amended :
    (∀ data : List Nat, data.length < 4 →
      parse_framed_message data =
        .error (.ProtocolError "Insufficient data for frame header")) ∧
    (∀ data : List Nat, 4 ≤ data.length →
      MAX_MESSAGE_SIZE < fromBEBytes (data.take 4) →
      parse_framed_message data = .error (.ProtocolError "Message too large")) ∧
    (∀ data : List Nat, 4 ≤ data.length →
      fromBEBytes (data.take 4) ≤ MAX_MESSAGE_SIZE →
      data.length < 4 + fromBEBytes (data.take 4) →
      parse_framed_message data = .error (.ProtocolError "Incomplete message frame")) ∧
    (∀ data : List Nat, 4 ≤ data.length →
      fromBEBytes (data.take 4) ≤ MAX_MESSAGE_SIZE →
      4 + fromBEBytes (data.take 4) ≤ data.length →
      decodeMessage ((data.drop 4).take (fromBEBytes (data.take 4))) = none →
      parse_framed_message data = .error (.SerializationError "Deserialization failed")) ∧
    ((NetworkError.ProtocolError "Insufficient data for frame header" ≠
        NetworkError.ProtocolError "Message too large") ∧
     (NetworkError.ProtocolError "Insufficient data for frame header" ≠
        NetworkError.ProtocolError "Incomplete message frame") ∧
     (NetworkError.ProtocolError "Message too large" ≠
        NetworkError.ProtocolError "Incomplete message frame") ∧
     (NetworkError.ProtocolError "Insufficient data for frame header" ≠
        NetworkError.SerializationError "Deserialization failed") ∧
     (NetworkError.ProtocolError "Message too large" ≠
        NetworkError.SerializationError "Deserialization failed") ∧
     (NetworkError.ProtocolError "Incomplete message frame" ≠
        NetworkError.SerializationError "Deserialization failed")) ∧
    ((NetworkError.ProtocolError "Insufficient data for frame header").kindIdx =
        (NetworkError.ProtocolError "Message too large").kindIdx ∧
     (NetworkError.ProtocolError "Incomplete message frame").kindIdx =
        (NetworkError.ProtocolError "Message too large").kindIdx ∧
     (NetworkError.ProtocolError "Insufficient data for frame header").kindIdx ≠
        (NetworkError.SerializationError "Deserialization failed").kindIdx) := by
  refine ⟨?_, ?_, ?_, ?_, ?_, ?_⟩
  · intro data h
    simp only [parse_framed_message]
    rw [if_pos h]
  · intro data h4 hlen
    simp only [parse_framed_message]
    rw [if_neg (by omega), if_pos hlen]
  · intro data h4 hle hshort
    simp only [parse_framed_message]
    rw [if_neg (by omega), if_neg (by omega), if_pos hshort]
  · intro data h4 hle hlong hdec
    have hbody : ((data.drop 4).take (fromBEBytes (data.take 4))).length ≤
        MAX_MESSAGE_SIZE := by
      rw [List.length_take]
      omega
    simp only [parse_framed_message]
    rw [if_neg (by omega), if_neg (by omega), if_neg (by omega)]
    simp only [Message.from_bytes, hdec]
    rw [if_neg (by omega)]
  · exact ⟨by decide, by decide, by decide, by decide, by decide, by decide⟩
  · exact ⟨rfl, rfl, by decide⟩

/-- Counterexample to claim C7 as stated: the short-header failure and
the oversize failure are NOT distinct error kinds — both are the
ProtocolError variant of NetworkError, with the same constructor index,
differing only in the message string. A caller matching on the error
variant cannot distinguish the recoverable short-read cases from the
fatal oversize case. -/
theorem counterexample_C7 :
    parse_framed_message [0] =
      .error (.ProtocolError "Insufficient data for frame header") ∧
    parse_framed_message [255, 255, 255, 255, 7] =
      .error (.ProtocolError "Message too large") ∧
    (NetworkError.ProtocolError "Insufficient data for frame header").kindIdx =
      (NetworkError.ProtocolError "Message too large").kindIdx := by
  refine ⟨rfl, ?_, rfl⟩
  have h4 : (4 : Nat) ≤ ([255, 255, 255, 255, 7] : List Nat).length := by decide
  have hlen : MAX_MESSAGE_SIZE <
      fromBEBytes (([255, 255, 255, 255, 7] : List Nat).take 4) := by decide
  simp only [parse_framed_message]
  rw [if_neg (by omega), if_pos hlen]

/-- Witness for claim C7 (amended): the four failure cases hit at
concrete inputs — a 2-byte fragment, a frame declaring 4 GiB, a frame
declaring 1024 bytes with only 2 present, and a 1-byte body that fails
deserialization. -/
theorem claim_C7_witness :
    parse_framed_message [0, 0] =
      .error (.ProtocolError "Insufficient data for frame header") ∧
    parse_framed_message [255, 255, 255, 255] =
      .error (.ProtocolError "Message too large") ∧
    parse_framed_message [0, 0, 4, 0, 1, 2] =
      .error (.ProtocolError "Incomplete message frame") ∧
    parse_framed_message [0, 0, 0, 1, 99] =
      .error (.SerializationError "Deserialization failed") := by
  refine ⟨claim_C7_amended.1 [0, 0] (by decide),
    claim_C7_amended.2.1 [255, 255, 255, 255] (by decide) (by decide),
    claim_C7_amended.2.2.1 [0, 0, 4, 0, 1, 2] (by decide) (by decide) (by decide),
    claim_C7_amended.2.2.2.1 [0, 0, 0, 1, 99] (by decide) (by decide) (by decide)
      (by decide)⟩

/-- Counterexample to claim C8: Message::to_bytes does not produce the
spec-described envelope — after the version byte it emits the FOUR-byte
little-endian serde variant index (here 5 for Heartbeat), not one byte
carrying the 0x06 discriminant, so the first twelve bytes differ from
the spec layout. -/
theorem counterexample_C8 :
    encodeMessage c8Msg = [1, 5, 0, 0, 0, 0, 0, 0, 0, 0, 0, 0, 0, 0, 0, 5, 0, 0, 0] ∧
    spec_envelope_prefix c8Msg = [1, 6, 0, 0, 0, 0, 0, 0, 0, 0, 0, 0] ∧
    (encodeMessage c8Msg).take 12 ≠ spec_envelope_prefix c8Msg := by
  refine ⟨by decide, by decide, by decide⟩

/-- Claim C8 (amended): to_bytes emits the envelope fields in the
spec-listed order — version, message type, timestamp as 8 LE bytes,
key_id as 2 bytes, then the payload encoding — but the message type is
serialized as a 4-byte little-endian serde variant index with the
values 0..7 in declaration order, never equal to the repr(u8)
discriminants 0x01..0xFF that the claim prescribes for a single byte. -/
theorem claim_C8_amended :
    (∀ m : Message, encodeMessage m =
      toLEBytes 1 m.version ++ toLEBytes 4 (typeIdx m.message_type) ++
      toLEBytes 8 m.timestamp ++ toLEBytes 2 m.key_id ++ encodePayload m.payload) ∧
    (typeIdx .Handshake = 0 ∧ typeIdx .HandshakeResponse = 1 ∧
     typeIdx .EncryptedMessage = 2 ∧ typeIdx .KeyRotation = 3 ∧
     typeIdx .Ack = 4 ∧ typeIdx .Heartbeat = 5 ∧
     typeIdx .Disconnect = 6 ∧ typeIdx .Error = 7) ∧
    (∀ t : MessageType, typeIdx t ≠ messageTypeDiscriminant t) ∧
    (∀ t : MessageType, (toLEBytes 4 (typeIdx t)).length = 4) := by
  refine ⟨fun m => rfl, ⟨rfl, rfl, rfl, rfl, rfl, rfl, rfl, rfl⟩, ?_,
    fun t => toLEBytes_length 4 _⟩
  intro t
  cases t <;> decide

/-- Counterexample to claim C2 as stated: when AEAD decryption fails,
Session::recv returns the decryption-failure error, but the session's
established flag REMAINS true — only the Disconnect branch ever sets
established to false, so AEAD failure is not fatal to the session. -/
theorem counterexample_C2 :
    (Session.recv c2NoneDecrypt c2Session c2Msg 0).1 =
      .error (.ConnectionError "Decryption failed") ∧
    ((Session.recv c2NoneDecrypt c2Session c2Msg 0).2).established = true := by
  exact ⟨rfl, rfl⟩

/-- Claim C2 (amended): if the session is established, the message
validates, it is an EncryptedMessage whose key retrieval succeeds, and
the AEAD rejects the ciphertext, then Session::recv returns the
ConnectionError wrapping the decryption failure and leaves the
established flag unchanged (it does NOT become false). -/
theorem claim_C2_amended (d : AeadDecrypt) (s : Session) (msg : Message) (now : Nat)
    (hest : s.established = true)
    (hval : msg.validate now = .ok ())
    (htype : msg.message_type = .EncryptedMessage)
    (nonce ct : List Nat) (counter : Nat)
    (hpay : msg.payload = .EncryptedData nonce ct counter)
    (key : SymmetricKey)
    (hkey : (s.ratchet.get_recv_key counter).1 = .ok key)
    (hdec : d key.key nonce ct [] = none) :
    (Session.recv d s msg now).1 = .error (.ConnectionError "Decryption failed") ∧
    ((Session.recv d s msg now).2).established = s.established := by
  simp only [Session.recv, hest, hval, htype, hpay, hkey, decrypt_simple, decrypt, hdec]
  exact ⟨trivial, trivial⟩

/-- Witness for claim C2 (amended) at a concrete session and message. -/
theorem claim_C2_witness :
    (Session.recv c2wD c2wS c2wM 0).1 =
      .error (.ConnectionError "Decryption failed") ∧
    ((Session.recv c2wD c2wS c2wM 0).2).established = c2wS.established :=
  claim_C2_amended c2wD c2wS c2wM 0 rfl rfl rfl
    (List.replicate 24 2) [9] 0 rfl
    (derive_message_key (RatchetState.new (List.replicate 32 1) 0).recv_chain_key 0)
    rfl rfl

end Aegis
